import Mathlib

/-!
Verification of the xENSO repository (climatology / anomaly extraction,
coordinate-preserving convolution, the E and C index engine of
src/xenso/indices.py, and the Niño zone averager) against its
natural-language specification.

The embedding translates the Python source into Lean:
machine floats become exact field elements (ℚ where concrete evaluation is
needed, ℝ where irrational constants such as sqrt 2 appear), xarray labelled
arrays become explicit coordinate lists paired with value lists, and Python
exceptions become an explicit error type returned through Except.
-/

set_option maxRecDepth 4000

/-- Error taxonomy of the spec: the ValueError raised by compute_anomaly maps
to invalidArgument, and the MissingDimensionsError surfaced by xarray when the
time coordinate is absent maps to missingDimension. -/
inductive XErr where
  | invalidArgument
  | missingDimension
deriving DecidableEq, Repr

/-- Calendar date label of a time coordinate (a numpy datetime), with
lexicographic ordering year, month, day. -/
structure Date where
  year : ℤ
  month : ℕ
  day : ℕ
deriving DecidableEq, Repr

/-- Lexicographic comparison of date labels, mirroring chronological order of
datetime coordinates. -/
def Date.le (a b : Date) : Bool :=
  decide (a.year < b.year) ||
    (decide (a.year = b.year) &&
      (decide (a.month < b.month) ||
        (decide (a.month = b.month) && decide (a.day ≤ b.day))))

/-- Membership of a date in an xarray label slice: sel with a slice keeps the
labels between start and end, both ends inclusive. -/
def inSlice (bp : Date × Date) (t : Date) : Bool :=
  bp.1.le t && t.le bp.2

/-- A one-dimensional labelled array: the name of its single dimension, its
time labels and its values. A field whose time axis was renamed (for example
to month) is represented by a different axis string. -/
structure TimeSeries where
  axis : String
  times : List Date
  values : List ℚ
deriving DecidableEq, Repr

/-- The samples of a series that fall inside the base-period slice, mirroring
data.sel with a time slice in compute_climatology. -/
def sliceGroups (d : TimeSeries) (bp : Date × Date) : List (Date × ℚ) :=
  (d.times.zip d.values).filter fun p => inSlice bp p.1

/-- Mean of the samples of one calendar-month group, the reduction applied by
groupby month followed by mean. -/
def groupMean (g : List (Date × ℚ)) (m : ℕ) : ℚ :=
  let xs := (g.filter fun p => decide (p.1.month = m)).map fun p => p.2
  xs.sum / (xs.length : ℚ)

/-- Embedding of compute_climatology from src/xenso/core.py: slice the series
to the base period, group the remaining samples by calendar month and average
each group.  The group keys are the distinct months present in the sliced
data, in ascending order, exactly as xarray groupby produces them.  Modelled
from the spec: xarray raises a missing-dimension error when the time
coordinate used by the slice and the groupby is absent (the repository test
suite pins this behaviour for compute_anomaly). -/
def compute_climatology (d : TimeSeries) (bp : Date × Date) :
    Except XErr (List (ℕ × ℚ)) :=
  if d.axis = "time" then
    let sliced := sliceGroups d bp
    let keys := List.insertionSort (· ≤ ·) (sliced.map fun p => p.1.month).dedup
    Except.ok (keys.map fun m => (m, groupMean sliced m))
  else
    Except.error XErr.missingDimension

/-- The groupby-month subtraction data.groupby time.month minus climatology:
every sample has the climatology value of its calendar month subtracted.  A
month absent from the climatology aligns to a missing value (NaN in xarray),
modelled as none.  Modelled from the spec: the groupby fails with a
missing-dimension error when the time coordinate is absent, as pinned by
tests/test_core.py. -/
def groupSub (d : TimeSeries) (c : List (ℕ × ℚ)) :
    Except XErr (List (Date × Option ℚ)) :=
  if d.axis = "time" then
    Except.ok ((d.times.zip d.values).map fun p =>
      (p.1, (c.lookup p.1.month).map fun v => p.2 - v))
  else
    Except.error XErr.missingDimension

/-- Embedding of compute_anomaly from src/xenso/core.py: with no climatology
and no base period it raises a ValueError (invalidArgument); with only a base
period it first computes the climatology; finally it subtracts the
climatology month-wise. -/
def compute_anomaly (d : TimeSeries) (climatology : Option (List (ℕ × ℚ)))
    (base_period : Option (Date × Date)) :
    Except XErr (List (Date × Option ℚ)) :=
  match climatology with
  | none =>
    match base_period with
    | none => Except.error XErr.invalidArgument
    | some bp => (compute_climatology d bp).bind fun c => groupSub d c
  | some c => groupSub d c

/-- Index into the boundary-mirrored (reflect) extension of an array of length
n, the default padding mode of scipy.ndimage.convolve1d: the extension is
periodic with period 2n and reads d c b a | a b c d | d c b a. -/
def reflectIndex (n : ℕ) (i : ℤ) : ℕ :=
  let j := (i % (2 * (n : ℤ))).toNat
  if j < n then j else 2 * n - 1 - j

/-- Read a value from the reflect-padded extension of a list. -/
def reflectGet {α : Type} [Field α] (v : List α) (i : ℤ) : α :=
  v.getD (reflectIndex v.length i) 0

/-- Model of scipy.ndimage.correlate1d with reflect padding: output i is the
sum over the kernel of weight j times the input sample at
i + j - length/2 - origin, read through the reflected boundary. -/
def correlate1d {α : Type} [Field α] (v w : List α) (origin : ℤ) : List α :=
  (List.range v.length).map fun (i : ℕ) =>
    ((List.range w.length).map fun (j : ℕ) =>
      w.getD j 0 *
        reflectGet v ((i : ℤ) + (j : ℤ) - ((w.length / 2 : ℕ) : ℤ) - origin)).sum

/-- Model of scipy.ndimage.convolve1d: correlate against the reversed kernel,
shifting the origin by one for even-length kernels, exactly as the scipy
wrapper does. -/
def convolve1d {α : Type} [Field α] (v w : List α) : List α :=
  correlate1d v w.reverse (if w.length % 2 = 0 then (-1 : ℤ) else 0)

/-- A labelled one-dimensional slice of a field along a named axis: the
coordinate labels of that axis and the values. -/
structure DimSeries (α : Type) (C : Type) where
  coords : List C
  values : List α
deriving DecidableEq

/-- Embedding of xconvolve from src/xenso/core.py: run the convolution
primitive along the axis (which drops the labels, because the primitive is
axis-agnostic) and re-attach the original coordinate labels of the axis to
the result. -/
def xconvolve {α C : Type} [Field α] (data : DimSeries α C) (kernel : List α) :
    DimSeries α C :=
  { coords := data.coords, values := convolve1d data.values kernel }

/-- Kernel normalization performed by the smooth_kernel setter of ECindex:
kernel divided by kernel.sum. -/
def normalize_kernel {α : Type} [Field α] (k : List α) : List α :=
  k.map fun x => x / k.sum

/-- State of an ECindex instance (src/xenso/indices.py), after the principal
components have been computed: the raw projected PCs indexed by time with one
pair (mode 0, mode 1) per sample, the correction factor per mode, the stored
(normalized) smoothing kernel, and the lazily cached smoothed PCs
(anom_smooth_pcs, None until first read).  The time labels of the PC series
are positional and untouched by every operation modelled here, so they are
not repeated in the state. -/
structure ECstate (α : Type) where
  anom_pcs : List (α × α)
  corr_factor : α × α
  smooth_kernel : List α
  anom_smooth_pcs : Option (List (α × α))
deriving DecidableEq

/-- The corr_factor setter: stores the new factor.  It does not touch the
anom_smooth_pcs cache, exactly as in the source. -/
def ECstate.set_corr_factor {α : Type} (s : ECstate α) (c : α × α) : ECstate α :=
  { s with corr_factor := c }

/-- The smooth_kernel setter: stores the kernel divided by its sum.  It does
not touch the anom_smooth_pcs cache, exactly as in the source. -/
def ECstate.set_smooth_kernel {α : Type} [Field α] (s : ECstate α)
    (k : List α) : ECstate α :=
  { s with smooth_kernel := normalize_kernel k }

/-- Construction order of ECindex.__init__ with an explicit correction
factor: after _compute_pcs leaves the cache empty, the smooth_kernel setter
runs, then the corr_factor setter. -/
def ECstate.init {α : Type} [Field α] (pcs : List (α × α)) (corr : α × α)
    (kernel : List α) : ECstate α :=
  (((ECstate.mk pcs (0, 0) [] none).set_smooth_kernel kernel).set_corr_factor corr)

/-- The _corrected_pcs method: the raw PCs multiplied mode-wise by the
correction factor. -/
def ECstate.corrected_pcs {α : Type} [Field α] (s : ECstate α) : List (α × α) :=
  s.anom_pcs.map fun p => (p.1 * s.corr_factor.1, p.2 * s.corr_factor.2)

/-- The pcs property: returns the corrected PCs. -/
def ECstate.pcs {α : Type} [Field α] (s : ECstate α) : List (α × α) :=
  s.corrected_pcs

/-- Convolution of a (mode 0, mode 1) pair series along time, mode by mode:
the xconvolve call of pcs_smooth applied to the two-mode PC array. -/
def pair_convolve {α : Type} [Field α] (ps : List (α × α)) (k : List α) :
    List (α × α) :=
  (convolve1d (ps.map Prod.fst) k).zip (convolve1d (ps.map Prod.snd) k)

/-- The pcs_smooth property: if the cache is empty, convolve the corrected
PCs with the stored kernel and remember the result; otherwise return the
cached value unchanged.  Returns the value read together with the state after
the read. -/
def ECstate.pcs_smooth {α : Type} [Field α] (s : ECstate α) :
    List (α × α) × ECstate α :=
  match s.anom_smooth_pcs with
  | some v => (v, s)
  | none =>
    let v := pair_convolve s.corrected_pcs s.smooth_kernel
    (v, { s with anom_smooth_pcs := some v })

/-- The _compute_index method over the reals: select the two modes of the
(optionally smoothed) PCs and rotate, dividing by 2 to the power one half as
the source writes the square root of two. -/
noncomputable def ECstate.compute_index (s : ECstate ℝ) (smooth : Bool) :
    (List ℝ × List ℝ) × ECstate ℝ :=
  let r := if smooth then s.pcs_smooth else (s.pcs, s)
  ((r.1.map fun p => (p.1 - p.2) / (2 : ℝ) ^ ((1 : ℝ) / 2),
    r.1.map fun p => (p.1 + p.2) / (2 : ℝ) ^ ((1 : ℝ) / 2)), r.2)

/-- The square-root-of-cosine-latitude area weight computed in _compute_pcs:
sqrt of cos of the latitude converted from degrees to radians. -/
noncomputable def wgt (lat : ℤ) : ℝ :=
  Real.sqrt (Real.cos ((lat : ℝ) * Real.pi / 180))

/-- Abstract result of fitting the external eofs.xarray.Eof solver: the
ordered eigenvectors (spatial loadings) and eigenvalues of the weighted
covariance of the data it was given.  The eigendecomposition itself belongs
to the external library and stays opaque here; what matters for the claims is
which data the solver is fit on and how projection uses it. -/
structure EofSolverModel where
  eigvec : ℕ → ℤ × ℤ → ℝ
  eigval : ℕ → ℝ

/-- Model of Eof.projectField with eofscaling equal to 1, from the external
eofs library documentation: weight the projected field with the solver
weights, project it onto eigenvector k, and divide by the square root of
eigenvalue k. -/
noncomputable def projectField (sol : EofSolverModel) (spaces : List (ℤ × ℤ))
    (w : ℤ × ℤ → ℝ) (field : Date → ℤ × ℤ → ℝ) (k : ℕ) (t : Date) : ℝ :=
  (spaces.map fun x => w x * field t x * sol.eigvec k x).sum /
    Real.sqrt (sol.eigval k)

/-- The spatial sub-domain selection of _compute_pcs: sort latitude and
longitude ascending, then keep the grid points inside the latitude and
longitude ranges (label slices, both ends inclusive). -/
def spatialSubset (lats lons : List ℤ) (latr lonr : ℤ × ℤ) : List (ℤ × ℤ) :=
  ((List.insertionSort (· ≤ ·) lats).filter fun l =>
      decide (latr.1 ≤ l) && decide (l ≤ latr.2)).product
    ((List.insertionSort (· ≤ ·) lons).filter fun l =>
      decide (lonr.1 ≤ l) && decide (l ≤ lonr.2))

/-- A gridded anomaly field with time, latitude and longitude axes. -/
structure SpatialField where
  lats : List ℤ
  lons : List ℤ
  times : List Date
  data : Date → ℤ × ℤ → ℝ

/-- The outcome of _compute_pcs: the time axis the PCs are defined on, the PC
values per mode and time, and the solver the projection used. -/
structure PCresult where
  times : List Date
  pcvals : ℕ → Date → ℝ
  solver : EofSolverModel

/-- Embedding of ECindex._compute_pcs: restrict the anomaly field to the
spatial sub-domain, fit the EOF solver on the base-period time slice of that
subset with square-root-cosine-latitude weights, then project the subset —
with its full, unsliced time axis — onto the two leading modes with unit
eigenvalue scaling.  The external eigendecomposition is a parameter eofFit
receiving exactly the arguments the source hands to the Eof constructor. -/
noncomputable def compute_pcs
    (eofFit : List Date → List (ℤ × ℤ) → (Date → ℤ × ℤ → ℝ) → (ℤ × ℤ → ℝ) → EofSolverModel)
    (f : SpatialField) (lat_range long_range : ℤ × ℤ) (bp : Date × Date) :
    PCresult :=
  let spaces := spatialSubset f.lats f.lons lat_range long_range
  let w : ℤ × ℤ → ℝ := fun x => wgt x.1
  let solver := eofFit (f.times.filter fun t => inSlice bp t) spaces f.data w
  { times := f.times
    pcvals := fun k t => projectField solver spaces w f.data k t
    solver := solver }

/-- A two-dimensional field over latitude and longitude, as consumed by
enzones. -/
structure Grid2D where
  lats : List ℤ
  lons : List ℤ
  data : ℤ → ℤ → ℚ

/-- Label-slice selection on both spatial axes, both ends inclusive. -/
def latlonSel (g : Grid2D) (latr lonr : ℤ × ℤ) : Grid2D :=
  { lats := g.lats.filter fun l => decide (latr.1 ≤ l) && decide (l ≤ latr.2),
    lons := g.lons.filter fun l => decide (lonr.1 ≤ l) && decide (l ≤ lonr.2),
    data := g.data }

/-- Mean over the latitude and longitude dimensions. -/
def meanLatLon (g : Grid2D) : ℚ :=
  (g.lats.map fun la => (g.lons.map fun lo => g.data la lo).sum).sum /
    ((g.lats.length * g.lons.length : ℕ) : ℚ)

/-- The fixed El Niño zone boxes of enzones in src/xenso/indices.py. -/
def zones (zone : String) : Option ((ℤ × ℤ) × (ℤ × ℤ)) :=
  match zone with
  | "12" => some ((-10, 0), (270, 280))
  | "3" => some ((-5, 5), (210, 270))
  | "34" => some ((-5, 5), (190, 240))
  | "4" => some ((-5, 5), (160, 210))
  | _ => none

/-- Embedding of enzones: select the requested zone box and average over
latitude and longitude.  An unknown zone key has no entry in the zone table
(a KeyError in the source), giving none. -/
def enzones (data : Grid2D) (zone : String) : Option ℚ :=
  (zones zone).map fun z => meanLatLon (latlonSel data z.1 z.2)

/-- The synthetic uniform-grid field of the spec and the test suite: latitude
-90 to 89, longitude 0 to 359, and the value of every cell equal to its
longitude index. -/
def enzonesTestField : Grid2D :=
  { lats := (List.range 180).map fun i => (i : ℤ) - 90,
    lons := (List.range 360).map fun i => (i : ℤ),
    data := fun _ lo => (lo : ℚ) }

unseal Rat.add Rat.sub Rat.mul Rat.inv

lemma groupSub_ne_invalidArgument (d : TimeSeries) (c : List (ℕ × ℚ)) :
    groupSub d c ≠ Except.error XErr.invalidArgument := by
  unfold groupSub
  split <;> simp

lemma compute_climatology_ne_invalidArgument (d : TimeSeries) (bp : Date × Date) :
    compute_climatology d bp ≠ Except.error XErr.invalidArgument := by
  unfold compute_climatology
  split <;> simp

lemma bind_groupSub_ne_invalidArgument (d : TimeSeries) (bp : Date × Date) :
    (compute_climatology d bp).bind (fun c => groupSub d c) ≠
      Except.error XErr.invalidArgument := by
  cases hc : compute_climatology d bp with
  | ok v =>
    simpa [Except.bind] using groupSub_ne_invalidArgument d v
  | error e =>
    have he : e ≠ XErr.invalidArgument := by
      intro h
      exact compute_climatology_ne_invalidArgument d bp (h ▸ hc)
    simpa [Except.bind] using he

/-- C5: compute_anomaly raises the invalid-argument error exactly when neither
a climatology nor a base period is supplied; supplying at least one of the
two never produces this error. -/
theorem anomaly_invalid_argument_iff (d : TimeSeries)
    (c : Option (List (ℕ × ℚ))) (bp : Option (Date × Date)) :
    compute_anomaly d c bp = Except.error XErr.invalidArgument ↔
      c = none ∧ bp = none := by
  cases c with
  | some c => simp [compute_anomaly, groupSub_ne_invalidArgument d c]
  | none =>
    cases bp with
    | none => simp [compute_anomaly]
    | some bp => simp [compute_anomaly, bind_groupSub_ne_invalidArgument d bp]

/-- A field whose time axis was renamed to month: the labelled array carries a
month dimension and no time dimension. -/
def monthlyRenamed : TimeSeries :=
  TimeSeries.mk "month" [] []

/-- C6 counterexample: on a field lacking the time axis, a call with neither a
climatology nor a base period fails with the invalid-argument error, not the
missing-dimension error the claim requires of every call on such a field. -/
theorem anomaly_missing_dim_cex :
    compute_anomaly monthlyRenamed none none = Except.error XErr.invalidArgument ∧
      XErr.invalidArgument ≠ XErr.missingDimension :=
  ⟨rfl, by decide⟩

/-- C6 (amended): for every field lacking the time axis, compute_anomaly
fails with the missing-dimension error whenever at least one of climatology
or base period is supplied. -/
theorem anomaly_missing_time_dim (d : TimeSeries) (c : Option (List (ℕ × ℚ)))
    (bp : Option (Date × Date)) (hax : d.axis ≠ "time")
    (hargs : c ≠ none ∨ bp ≠ none) :
    compute_anomaly d c bp = Except.error XErr.missingDimension := by
  cases c with
  | some c => simp [compute_anomaly, groupSub, hax]
  | none =>
    cases bp with
    | none => simp at hargs
    | some bp => simp [compute_anomaly, compute_climatology, hax, Except.bind]

theorem anomaly_missing_time_dim_witness :
    monthlyRenamed.axis ≠ "time" ∧
      compute_anomaly monthlyRenamed (some [(1, 0)]) none =
        Except.error XErr.missingDimension :=
  ⟨by decide, anomaly_missing_time_dim monthlyRenamed (some [(1, 0)]) none
    (by decide) (Or.inl (by simp))⟩

/-- C10: when both a climatology and a base period are supplied, the supplied
climatology takes precedence — the result is the same as passing the
climatology alone — and, on a field with a time axis, the call returns
normally. -/
theorem anomaly_climatology_precedence (d : TimeSeries) (c : List (ℕ × ℚ))
    (bp : Date × Date) (hax : d.axis = "time") :
    compute_anomaly d (some c) (some bp) = compute_anomaly d (some c) none ∧
      ∃ r, compute_anomaly d (some c) (some bp) = Except.ok r := by
  constructor
  · rfl
  · simp only [compute_anomaly, groupSub, if_pos hax]
    exact ⟨_, rfl⟩

/-- A one-sample series with a time axis. -/
def tinyTimeSeries : TimeSeries :=
  TimeSeries.mk "time" [Date.mk 2000 1 15] [5]

/-- The calendar-year 2000 base period. -/
def fullYear2000 : Date × Date :=
  (Date.mk 2000 1 1, Date.mk 2000 12 31)

theorem anomaly_climatology_precedence_witness :
    tinyTimeSeries.axis = "time" ∧
      (compute_anomaly tinyTimeSeries (some [(1, 2)]) (some fullYear2000) =
          compute_anomaly tinyTimeSeries (some [(1, 2)]) none ∧
        ∃ r, compute_anomaly tinyTimeSeries (some [(1, 2)]) (some fullYear2000) =
          Except.ok r) :=
  ⟨rfl, anomaly_climatology_precedence tinyTimeSeries [(1, 2)] fullYear2000 rfl⟩

/-- A series whose base-period slice contains samples of only two calendar
months. -/
def twoMonthSeries : TimeSeries :=
  TimeSeries.mk "time" [Date.mk 2000 1 15, Date.mk 2000 2 15] [1, 2]

deriving instance DecidableEq for Except

/-- C4 counterexample: on a base period whose time slice contains samples of
only January and February, the climatology has 2 entries, not 12. -/
theorem climatology_twelve_cex :
    Except.map List.length (compute_climatology twoMonthSeries fullYear2000) =
      Except.ok 2 ∧ (2 : ℕ) ≠ 12 :=
  ⟨by decide, by decide⟩

/-- C4 (amended): for every field with a time axis whose base-period slice
contains samples of every calendar month 1..12 (and of no other month key),
the climatology has exactly 12 entries with pairwise distinct month keys, one
for each calendar month. -/
theorem climatology_months_present (d : TimeSeries) (bp : Date × Date)
    (hax : d.axis = "time")
    (hcover : ((sliceGroups d bp).map fun p => p.1.month).toFinset =
      Finset.Icc 1 12) :
    ∃ cl, compute_climatology d bp = Except.ok cl ∧ cl.length = 12 ∧
      (cl.map Prod.fst).Nodup ∧
      ∀ m, 1 ≤ m → m ≤ 12 → m ∈ cl.map Prod.fst := by
  set ms := (sliceGroups d bp).map fun p => p.1.month with hms
  set keys := List.insertionSort (· ≤ ·) ms.dedup with hkeys
  have hmap : (keys.map fun m => (m, groupMean (sliceGroups d bp) m)).map
      Prod.fst = keys := by
    have hid : (Prod.fst ∘ fun m : ℕ => (m, groupMean (sliceGroups d bp) m)) =
        id := rfl
    rw [List.map_map, hid, List.map_id]
  have hfin : ms.dedup.toFinset = ms.toFinset := by
    ext a
    simp [List.mem_toFinset, List.mem_dedup]
  refine ⟨keys.map fun m => (m, groupMean (sliceGroups d bp) m), ?_, ?_, ?_, ?_⟩
  · unfold compute_climatology
    rw [if_pos hax]
  · have h1 : keys.length = ms.dedup.length := List.length_insertionSort _ ms.dedup
    have h3 : ms.dedup.toFinset.card = ms.dedup.length :=
      List.toFinset_card_of_nodup (List.nodup_dedup ms)
    have h4 : ms.toFinset.card = 12 := by rw [hcover]; simp
    rw [List.length_map, h1, ← h3, hfin, h4]
  · rw [hmap]
    exact (List.perm_insertionSort _ ms.dedup).symm.nodup (List.nodup_dedup ms)
  · intro m h1 h12
    rw [hmap, hkeys, List.mem_insertionSort, List.mem_dedup, ← List.mem_toFinset,
      hcover, Finset.mem_Icc]
    exact ⟨h1, h12⟩

/-- A series with one sample in each calendar month of the year 2000. -/
def twelveMonthSeries : TimeSeries :=
  TimeSeries.mk "time" ((List.range 12).map fun i => Date.mk 2000 (i + 1) 15)
    ((List.range 12).map fun i => (i : ℚ))

theorem climatology_months_present_witness :
    twelveMonthSeries.axis = "time" ∧
      ((sliceGroups twelveMonthSeries fullYear2000).map fun p =>
        p.1.month).toFinset = Finset.Icc 1 12 ∧
      ∃ cl, compute_climatology twelveMonthSeries fullYear2000 = Except.ok cl ∧
        cl.length = 12 ∧ (cl.map Prod.fst).Nodup ∧
        ∀ m, 1 ≤ m → m ≤ 12 → m ∈ cl.map Prod.fst :=
  ⟨rfl, by decide, climatology_months_present twelveMonthSeries fullYear2000
    rfl (by decide)⟩

lemma reflectIndex_of_lt {n i : ℕ} (h : i < n) : reflectIndex n i = i := by
  unfold reflectIndex
  have h1 : ((i : ℕ) : ℤ) % (2 * (n : ℤ)) = (i : ℤ) :=
    Int.emod_eq_of_lt (by exact_mod_cast Nat.zero_le i) (by omega)
  rw [h1]
  simp [h]

lemma correlate1d_kernel_one {α : Type} [Field α] (v : List α) :
    correlate1d v [1] 0 = v := by
  unfold correlate1d
  apply List.ext_getElem
  · simp
  · intro i h1 h2
    rw [List.getElem_map, List.getElem_range]
    have hr : List.range ([(1 : α)].length) = [0] := rfl
    rw [hr]
    simp only [List.map_cons, List.map_nil, List.sum_cons, List.sum_nil,
      add_zero]
    have hgd : [(1 : α)].getD 0 0 = 1 := rfl
    rw [hgd, one_mul]
    have hlen : ((([(1 : α)].length / 2 : ℕ) : ℤ)) = 0 := by simp
    have harg : ((i : ℤ) + ((0 : ℕ) : ℤ) - (([(1 : α)].length / 2 : ℕ) : ℤ) -
        (0 : ℤ)) = (i : ℤ) := by
      rw [hlen]
      push_cast
      ring
    rw [harg]
    unfold reflectGet
    rw [reflectIndex_of_lt h2]
    exact List.getD_eq_getElem v 0 h2

lemma convolve1d_kernel_one {α : Type} [Field α] (v : List α) :
    convolve1d v [1] = v :=
  correlate1d_kernel_one v

/-- C9: convolving along an axis with the one-element kernel 1 is the
identity transform: same length, same values, no shift, and the original
coordinate labels of the axis are carried over. -/
theorem xconvolve_kernel_one_identity {α C : Type} [Field α]
    (data : DimSeries α C) : xconvolve data [1] = data := by
  unfold xconvolve
  rw [convolve1d_kernel_one]

/-- C1: on every state, the index composer produces the E series as
(PC mode 0 minus PC mode 1) divided by the square root of two, and the C
series as (PC mode 0 plus PC mode 1) divided by the square root of two,
reading the corrected PCs. -/
theorem compute_index_rotation (s : ECstate ℝ) :
    (s.compute_index false).1 =
      (s.pcs.map fun p => (p.1 - p.2) / Real.sqrt 2,
        s.pcs.map fun p => (p.1 + p.2) / Real.sqrt 2) := by
  simp [ECstate.compute_index, Real.sqrt_eq_rpow]

lemma list_sum_map_div {α : Type} [DivisionRing α] (l : List α) (c : α) :
    (l.map fun x => x / c).sum = l.sum / c := by
  induction l with
  | nil => simp
  | cons a t ih => simp [ih, add_div]

/-- C7 (amended): for every kernel whose entries have a nonzero sum, the
smooth_kernel setter stores the kernel rescaled to sum to one. -/
theorem smooth_kernel_normalized {α : Type} [Field α] (s : ECstate α)
    (k : List α) (h : k.sum ≠ 0) :
    (s.set_smooth_kernel k).smooth_kernel.sum = 1 := by
  unfold ECstate.set_smooth_kernel normalize_kernel
  simp only
  rw [list_sum_map_div]
  exact div_self h

theorem smooth_kernel_normalized_witness :
    (([1, 2, 1] : List ℚ).sum ≠ 0) ∧
      ((ECstate.init ([] : List (ℚ × ℚ)) (1, 1) [1]).set_smooth_kernel
        [1, 2, 1]).smooth_kernel.sum = 1 :=
  ⟨by decide, smooth_kernel_normalized _ [1, 2, 1] (by decide)⟩

/-- C7 counterexample: for the zero-sum input kernel 1, -1 the stored kernel
does not sum to one (the source divides by the zero sum; in floating point
the stored entries are infinities whose sum is NaN, in this exact embedding
the division by zero yields zero entries — under neither semantics does the
stored kernel sum to one). -/
theorem smooth_kernel_zero_sum_cex :
    ((ECstate.init ([] : List (ℚ × ℚ)) (1, 1) [1]).set_smooth_kernel
      [1, -1]).smooth_kernel.sum ≠ 1 := by decide

/-- The failing trace for the smoothed-PC cache: construct an engine with raw
PCs one sample (1, 1), correction factor (1, 1) and kernel 1, then read the
smoothed PCs once (populating the cache). -/
def staleAfterRead : ECstate ℚ :=
  ((ECstate.init [(1, 1)] (1, 1) [1]).pcs_smooth).2

/-- The same engine after mutating the correction factor to (-1, -1) through
the setter. -/
def staleMutated : ECstate ℚ :=
  staleAfterRead.set_corr_factor (-1, -1)

/-- C3: the code keeps the stale cache.  After the correction factor is
mutated, reading the smoothed PCs still returns the value cached under the
old factor (1, 1), not the smoothing of the PCs corrected with the current
factor (-1, -1). -/
theorem pcs_smooth_stale_after_set_corr_factor :
    (staleMutated.pcs_smooth).1 = [((1 : ℚ), 1)] ∧
      pair_convolve staleMutated.corrected_pcs staleMutated.smooth_kernel =
        [((-1 : ℚ), -1)] ∧
      [((1 : ℚ), (1 : ℚ))] ≠ [((-1 : ℚ), (-1 : ℚ))] :=
  ⟨by decide, by decide, by decide⟩

/-- C8: on the synthetic uniform grid whose cell value equals its longitude
index, the four El Niño zone averages take the values the spec lists. -/
theorem enzones_synthetic_values :
    enzones enzonesTestField "12" = some 275 ∧
      enzones enzonesTestField "3" = some 240 ∧
      enzones enzonesTestField "34" = some 215 ∧
      enzones enzonesTestField "4" = some 185 :=
  ⟨by decide, by decide, by decide, by decide⟩

/-- C2: the principal components are defined on the full, un-restricted time
axis, and each PC value is the weighted projection of the full anomaly series
(spatial sub-domain only) onto an eigenvector of the solver fit on the
base-period-restricted slice, divided by the square root of the
corresponding eigenvalue. -/
theorem compute_pcs_full_projection
    (eofFit : List Date → List (ℤ × ℤ) → (Date → ℤ × ℤ → ℝ) → (ℤ × ℤ → ℝ) →
      EofSolverModel)
    (f : SpatialField) (latr lonr : ℤ × ℤ) (bp : Date × Date) (k : ℕ)
    (t : Date) :
    (compute_pcs eofFit f latr lonr bp).times = f.times ∧
      (compute_pcs eofFit f latr lonr bp).pcvals k t =
        ((spatialSubset f.lats f.lons latr lonr).map fun x =>
            wgt x.1 * f.data t x *
              (eofFit (f.times.filter fun u => inSlice bp u)
                (spatialSubset f.lats f.lons latr lonr) f.data
                (fun x => wgt x.1)).eigvec k x).sum /
          Real.sqrt ((eofFit (f.times.filter fun u => inSlice bp u)
            (spatialSubset f.lats f.lons latr lonr) f.data
            (fun x => wgt x.1)).eigval k) :=
  ⟨rfl, rfl⟩
